import Mathlib

set_option maxRecDepth 8000

/-!
Shallow embedding of the audio-capture / caption pipeline of
`src/tago-2nd-frontend/src/pages/joinpage.tsx` (and the language helpers of
`src/tago-2nd-frontend/src/config/helpers.ts` re-exported through
`Settings.tsx`).  Float32 samples are modelled as rationals; the
single-threaded JS event loop is modelled as an explicit event machine whose
suspension points (the `await`s inside the worklet `onmessage` handler and
the caption effect) become separate machine events.
-/

namespace Livekit

/-! ## Definitions: shallow embedding of the source -/

/-- JS `a || b` on a nullable string: `null`/`undefined` and the empty string
are falsy, any other string is returned unchanged. -/
def jsOrString (a : Option String) (b : String) : String :=
  match a with
  | none => b
  | some s => if s = "" then b else s

/-- JS `String.prototype.trim`: strip leading and trailing whitespace. -/
def jsTrim (s : String) : String :=
  String.mk (((s.data.dropWhile Char.isWhitespace).reverse.dropWhile
    Char.isWhitespace).reverse)

namespace WAVEncoder

/-- `Math.max(-1, Math.min(1, samples[i]))` — clamp a sample to `[-1, 1]`
(joinpage.tsx line 54). -/
def clampSample (s : ℚ) : ℚ := max (-1) (min 1 s)

/-- The integer conversion performed by `DataView.setInt16` on a number
already in int16 range: ECMAScript `ToIntegerOrInfinity` truncates toward
zero. -/
def jsToInt16 (q : ℚ) : ℤ := if 0 ≤ q then ⌊q⌋ else ⌈q⌉

/-- `view.setInt16(offset, sample * 0x7FFF, true)` applied to the clamped
sample (joinpage.tsx line 55); `0x7FFF = 32767`. -/
def encodeSample (s : ℚ) : ℤ := jsToInt16 (clampSample s * 32767)

/-- The PCM data section written by `encodeWAV`: each float sample clamped
and converted to 16-bit (joinpage.tsx lines 52-57). -/
def encodeWAVData (samples : List ℚ) : List ℤ := samples.map encodeSample

end WAVEncoder

/-- A transcription submission actually posted by `processAudioChunk`
(the permit-acquiring calls that reach the `fetch` of `/audio/process`):
its `chunkIndex`, `totalChunks` marker (`-1` = open) and the combined
samples handed to the WAV encoder. -/
structure AudioSubmission where
  index : ℕ
  totalChunks : ℤ
  samples : List ℚ
deriving DecidableEq

/-- State of one recording session of `startSpeech`/`stopSpeech`:
the worklet-closure variables (`audioBuffer`, `bufferSize`,
`overlapBuffer`), the refs (`chunkIndexRef`, `audioChunksRef`), the
module-level `isProcessingAudio` flag, plus ghost logs: every index passed
to `processAudioChunk` (`dispatches`, newest first), every permit-acquiring
submission (`submissions`, newest first) and the number of transcription
requests currently outstanding (`inFlight`). -/
structure CaptureState where
  audioBuffer : List (List ℚ)
  bufferSize : ℕ
  overlapBuffer : Option (List ℚ)
  chunkIndex : ℕ
  isProcessingAudio : Bool
  audioChunks : List (List ℚ)
  dispatches : List ℕ
  submissions : List AudioSubmission
  inFlight : ℕ
deriving DecidableEq

/-- `const targetBufferSize = 32000; // 2 seconds at 16kHz` -/
def targetBufferSize : ℕ := 32000

/-- `const overlapSize = 8000; // 0.5 seconds at 16kHz` -/
def overlapSize : ℕ := 8000

/-- Events of the capture event loop: a worklet `onmessage` callback
delivering one frame of samples, or the settling (success, non-OK response
or rejection) of the in-flight `processAudioChunk` request, which resumes
the suspended handler after its `await`. -/
inductive CaptureEvent where
  | frame (samples : List ℚ)
  | complete
deriving DecidableEq

/-- One worklet `onmessage` invocation (joinpage.tsx lines 490-539).
The frame is pushed and, once `bufferSize >= targetBufferSize`, the handler
prepends the overlap, saves the new overlap tail, encodes, and calls
`processAudioChunk(wavBlob, chunkIndexRef.current, -1)`:
* if `isProcessingAudio` is already set the call returns at once (the chunk
  is dropped) and the handler immediately runs its continuation — reset
  `audioBuffer`/`bufferSize` and increment `chunkIndexRef`;
* otherwise the permit is taken and the request posted
  (`hasCreds = false` models the missing-userId/roomId early return, which
  releases the permit without posting); the handler then suspends at
  `await processAudioChunk`, so the reset and increment are deferred to the
  `complete` event. -/
def stepFrame (hasCreds : Bool) (s : CaptureState) (f : List ℚ) : CaptureState :=
  let buf := s.audioBuffer ++ [f]
  let size := s.bufferSize + f.length
  if size ≥ targetBufferSize then
    let combined := (s.overlapBuffer.getD []) ++ buf.flatten
    let overlap :=
      if combined.length ≥ overlapSize then
        combined.drop (combined.length - overlapSize)
      else combined
    if s.isProcessingAudio then
      { s with audioBuffer := [], bufferSize := 0,
               overlapBuffer := some overlap,
               chunkIndex := s.chunkIndex + 1,
               dispatches := s.chunkIndex :: s.dispatches }
    else if hasCreds then
      { s with audioBuffer := buf, bufferSize := size,
               overlapBuffer := some overlap,
               isProcessingAudio := true,
               inFlight := s.inFlight + 1,
               dispatches := s.chunkIndex :: s.dispatches,
               submissions := ⟨s.chunkIndex, -1, combined⟩ :: s.submissions }
    else
      { s with audioBuffer := [], bufferSize := 0,
               overlapBuffer := some overlap,
               chunkIndex := s.chunkIndex + 1,
               dispatches := s.chunkIndex :: s.dispatches }
  else
    { s with audioBuffer := buf, bufferSize := size }

/-- The in-flight `processAudioChunk` settles: its `finally` clears
`isProcessingAudio`, the promise resolves, and the suspended `onmessage`
handler resumes after its `await` — `audioBuffer = []; bufferSize = 0;
chunkIndexRef.current++`. -/
def stepComplete (s : CaptureState) : CaptureState :=
  if s.isProcessingAudio then
    { s with isProcessingAudio := false,
             inFlight := s.inFlight - 1,
             audioBuffer := [], bufferSize := 0,
             chunkIndex := s.chunkIndex + 1 }
  else s

def captureStep (hasCreds : Bool) (s : CaptureState) : CaptureEvent → CaptureState
  | .frame f => stepFrame hasCreds s f
  | .complete => stepComplete s

/-- State right after `startSpeech` initialises the session
(`audioChunksRef.current = []; chunkIndexRef.current = 0;` and the fresh
closure variables). -/
def captureInit : CaptureState :=
  { audioBuffer := [], bufferSize := 0, overlapBuffer := none,
    chunkIndex := 0, isProcessingAudio := false, audioChunks := [],
    dispatches := [], submissions := [], inFlight := 0 }

/-- Run the capture event loop from an arbitrary state. -/
def captureRunFrom (hasCreds : Bool) (s : CaptureState)
    (evs : List CaptureEvent) : CaptureState :=
  evs.foldl (captureStep hasCreds) s

/-- Run the capture event loop from the `startSpeech` initial state. -/
def captureRun (hasCreds : Bool) (evs : List CaptureEvent) : CaptureState :=
  captureRunFrom hasCreds captureInit evs

/-- `stopSpeech` (joinpage.tsx lines 404-455): tear down the graph, then
`if (audioChunksRef.current.length > 0)` combine those chunks, encode and
`await processAudioChunk(wavBlob, chunkIndexRef.current,
chunkIndexRef.current + 1)` (a closed, non-negative `totalChunks`), clear
`audioChunksRef`, and finally reset `chunkIndexRef.current = 0`. -/
def stopSpeech (s : CaptureState) : CaptureState :=
  if s.audioChunks.isEmpty then
    { s with chunkIndex := 0 }
  else
    let combined := s.audioChunks.flatten
    { s with audioChunks := [],
             dispatches := s.chunkIndex :: s.dispatches,
             submissions :=
               ⟨s.chunkIndex, (s.chunkIndex : ℤ) + 1, combined⟩ :: s.submissions,
             chunkIndex := 0 }

/-- A full 2-second frame: 32000 samples at 16 kHz. -/
def fullFrame : List ℚ := List.replicate 32000 0

/-- The combined buffer handed to the WAV encoder at a dispatch:
stored overlap prepended to the flattened frame buffer. -/
def combinedAudio (s : CaptureState) (f : List ℚ) : List ℚ :=
  (s.overlapBuffer.getD []) ++ (s.audioBuffer ++ [f]).flatten

/-- The new overlap window saved after a dispatch: the last 0.5 s
(`overlapSize` samples) of the combined buffer, or all of it when shorter. -/
def newOverlap (s : CaptureState) (f : List ℚ) : List ℚ :=
  if (combinedAudio s f).length ≥ overlapSize then
    (combinedAudio s f).drop ((combinedAudio s f).length - overlapSize)
  else combinedAudio s f

/-- Invariant satisfied by every state the capture machine can reach:
the permit (`isProcessingAudio`) exactly counts the in-flight requests;
the dispatch log (newest first) is monotone, bounded by `chunkIndex`, and
was opened with index 0; the permit-acquiring submissions carry strictly
decreasing (newest-first) indices; `audioChunksRef` is never populated. -/
structure CaptureInv (s : CaptureState) : Prop where
  flight_eq : s.inFlight = if s.isProcessingAudio then 1 else 0
  disp_sorted : s.dispatches.Pairwise (· ≥ ·)
  disp_le : ∀ x ∈ s.dispatches, x ≤ s.chunkIndex
  disp_first : s.dispatches ≠ [] → s.dispatches.getLast? = some 0
  disp_nil : s.dispatches = [] → s.chunkIndex = 0
  busy_disp : s.isProcessingAudio = true → s.dispatches ≠ []
  subs_sorted : (s.submissions.map AudioSubmission.index).Pairwise (· > ·)
  subs_lt : s.isProcessingAudio = false →
    ∀ x ∈ s.submissions.map AudioSubmission.index, x < s.chunkIndex
  subs_busy : s.isProcessingAudio = true →
    ∃ i rest, s.submissions.map AudioSubmission.index = i :: rest ∧
      i ≤ s.chunkIndex ∧ ∀ x ∈ rest, x < i
  chunks_nil : s.audioChunks = []

/-- How one `processAudioChunk` invocation that entered the body can end:
`userId`/`roomId` missing (early return), a 2xx response (with the optional
`text` and `audioContent` fields of the parsed body), a non-OK response
(`throw` caught by the `catch`), or a rejected `fetch`/`arrayBuffer`
(also caught by the `catch`). -/
inductive SubmitOutcome where
  | missingInfo
  | httpOk (text : Option String) (audioContent : Option String)
  | httpError (status : ℕ)
  | networkError
deriving DecidableEq

/-- Observable result of one `processAudioChunk` invocation: the
`isProcessingAudio` flag after it returns, and whether a `"transcription"`
`CustomEvent` was dispatched. -/
structure SubmitResult where
  isProcessingAudio : Bool
  dispatchedTranscription : Bool
deriving DecidableEq

/-- `processAudioChunk` as a function of the flag it finds and the outcome
of its body.  If the flag is set it returns at once (the flag still belongs
to the in-flight invocation).  Otherwise it sets the flag; the missing-info
path clears it and returns; every other path runs the `try`/`catch` whose
`finally` clears it.  The transcription event fires only when the response
carries non-blank `text` and some `audioContent`
(`result.text && result.text.trim() && result.audioContent`). -/
def processAudioChunkModel (busy0 : Bool) (outcome : SubmitOutcome) :
    SubmitResult :=
  if busy0 then { isProcessingAudio := true, dispatchedTranscription := false }
  else
    match outcome with
    | .missingInfo => { isProcessingAudio := false, dispatchedTranscription := false }
    | .httpOk text audio =>
        { isProcessingAudio := false,
          dispatchedTranscription :=
            (match text with
             | some t => t != "" && jsTrim t != ""
             | none => false) && audio.isSome }
    | .httpError _ => { isProcessingAudio := false, dispatchedTranscription := false }
    | .networkError => { isProcessingAudio := false, dispatchedTranscription := false }

/-- The `TranscriptionMessage` shape of joinpage.tsx lines 15-22; incoming
data messages may lack the `text` field, hence `Option`. -/
structure TranscriptionMessage where
  type : String
  text : Option String
  language : String
  timestamp : ℕ
  isLocal : Bool
  participantName : String
deriving DecidableEq

/-- An in-flight translation `fetch`: the caption message it belongs to and
the `myLanguage` value captured when it was issued. -/
structure PendingTranslation where
  msg : TranscriptionMessage
  myLanguage : String
deriving DecidableEq

/-- Body of a request to `/translate`. -/
structure TranslateRequest where
  text : String
  targetLang : String
  sourceLang : String
deriving DecidableEq

/-- Body of a request to `/audio/tts`. -/
structure TTSRequest where
  text : String
  language : String
deriving DecidableEq

/-- Viewer-side caption state: displayed text (`captionText`), message
history (`messages`), the timeout object held by `captionTimeoutRef`
(`timerRef`), the set of scheduled, not yet fired or cancelled timeouts
(`scheduled`, ids drawn from `nextTimerId`), the in-flight translation
fetches (`pending`, oldest first) and ghost logs of the issued translation
and TTS requests. -/
structure CaptionState where
  captionText : String
  messages : List TranscriptionMessage
  timerRef : Option ℕ
  scheduled : List ℕ
  nextTimerId : ℕ
  pending : List PendingTranslation
  translateRequests : List TranslateRequest
  ttsRequests : List TTSRequest
deriving DecidableEq

/-- `localStorage.getItem("listenerLanguage") || "en"` — the target language
used by the caption effect (joinpage.tsx line 234). -/
def captionTargetLanguage (store : Option String) : String :=
  jsOrString store "en"

/-- Events of the caption effect's event loop: a new data message arrives
(`store` is the `listenerLanguage` localStorage entry at that moment), the
`i`-th pending translation fetch resolves (with the optional
`translatedText` field) or rejects, or a scheduled 5 s timeout fires. -/
inductive CaptionEvent where
  | recv (msg : TranscriptionMessage) (store : Option String)
  | translateOk (i : ℕ) (translatedText : Option String)
  | translateErr (i : ℕ)
  | timerFire (id : ℕ)
deriving DecidableEq

/-- `lastMsg.type === 'caption' && lastMsg.text && lastMsg.text.trim()` —
an absent `text` field behaves exactly like an empty one (both falsy). -/
def captionMsgOk (msg : TranscriptionMessage) : Bool :=
  msg.type == "caption" && msg.text.getD "" != "" &&
    jsTrim (msg.text.getD "") != ""

/-- One step of the caption effect (joinpage.tsx lines 225-278). -/
def captionStep (role : String) (s : CaptionState) : CaptionEvent → CaptionState
  | .recv msg store =>
    if captionMsgOk msg then
      let t := msg.text.getD ""
      let cleared : CaptionState :=
        { s with captionText := "", messages := [],
                 scheduled := match s.timerRef with
                              | some id => s.scheduled.erase id
                              | none => s.scheduled }
      if role = "listener" then
        let lang := captionTargetLanguage store
        { cleared with
            pending := cleared.pending ++ [⟨msg, lang⟩],
            translateRequests := cleared.translateRequests ++ [⟨t, lang, "auto"⟩] }
      else
        { cleared with
            captionText := t, messages := [msg],
            timerRef := some cleared.nextTimerId,
            scheduled := cleared.scheduled ++ [cleared.nextTimerId],
            nextTimerId := cleared.nextTimerId + 1 }
    else s
  | .translateOk i data =>
    match s.pending.get? i with
    | none => s
    | some p =>
      let translated := jsOrString data (p.msg.text.getD "")
      { s with
          captionText := translated,
          messages := [{ p.msg with text := some translated,
                                    language := p.myLanguage }],
          timerRef := some s.nextTimerId,
          scheduled := s.scheduled ++ [s.nextTimerId],
          nextTimerId := s.nextTimerId + 1,
          ttsRequests := s.ttsRequests ++ [⟨translated, p.myLanguage⟩],
          pending := s.pending.eraseIdx i }
  | .translateErr i =>
    match s.pending.get? i with
    | none => s
    | some p =>
      { s with
          captionText := p.msg.text.getD "",
          messages := [{ p.msg with language := p.myLanguage }],
          timerRef := some s.nextTimerId,
          scheduled := s.scheduled ++ [s.nextTimerId],
          nextTimerId := s.nextTimerId + 1,
          pending := s.pending.eraseIdx i }
  | .timerFire id =>
    if id ∈ s.scheduled then
      { s with captionText := "", scheduled := s.scheduled.erase id }
    else s

/-- Caption state when the page mounts. -/
def captionInit : CaptionState :=
  { captionText := "", messages := [], timerRef := none, scheduled := [],
    nextTimerId := 0, pending := [], translateRequests := [], ttsRequests := [] }

def captionRunFrom (role : String) (s : CaptionState)
    (evs : List CaptionEvent) : CaptionState :=
  evs.foldl (captionStep role) s

def captionRun (role : String) (evs : List CaptionEvent) : CaptionState :=
  captionRunFrom role captionInit evs

/-- The state after the synchronous clearing part of the effect. -/
def clearedState (s : CaptionState) : CaptionState :=
  { s with captionText := "", messages := [],
           scheduled := match s.timerRef with
                        | some id => s.scheduled.erase id
                        | none => s.scheduled }

/-- Invariant of every reachable caption state: scheduled timeout ids are
distinct and below the id counter, the ref points below the counter, and
every in-flight translation belongs to a validated caption message. -/
structure CaptionInv (s : CaptionState) : Prop where
  sched_nodup : s.scheduled.Nodup
  sched_lt : ∀ id ∈ s.scheduled, id < s.nextTimerId
  ref_lt : ∀ id, s.timerRef = some id → id < s.nextTimerId
  pending_text : ∀ p ∈ s.pending,
    p.msg.text.getD "" ≠ "" ∧ jsTrim (p.msg.text.getD "") ≠ ""

namespace Helpers

/-- `static defaultLanguage = "en-US"` -/
def defaultLanguage : String := "en-US"

/-- `Helpers.getUserLanguage()`: user-profile language first, then the
`listenerLanguage` localStorage entry, then the default. -/
def getUserLanguage (profileLanguage listenerLanguage : Option String) : String :=
  match profileLanguage with
  | some l => l
  | none =>
    match listenerLanguage with
    | some l => l
    | none => defaultLanguage

end Helpers

/-- `getTargetLanguageCode` (joinpage.tsx lines 306-308): the language sent
with transcription requests — `localStorage.getItem("listenerLanguage") ||
userLanguage` where `userLanguage = Helpers.getUserLanguage()`. -/
def getTargetLanguageCode (store : Option String) (userLanguage : String) :
    String :=
  jsOrString store userLanguage

/-- Modelled from the spec: the resolution order §4.4 step 2 claims for a
listener's caption events — "explicit override, else profile preference,
else default".  The code that would implement this order on the caption
path is absent from the repository; this definition follows the spec's
words, to be compared with `captionTargetLanguage`. -/
def specTargetLanguage (override profileLanguage : Option String)
    (dflt : String) : String :=
  match override with
  | some o => o
  | none =>
    match profileLanguage with
    | some p => p
    | none => dflt

/-- A trace whose single full frame leaves a transcription request in
flight. -/
def busyTrace : List CaptureEvent := [.frame fullFrame]

/-- Two full frames arrive while the first submission is in flight, the
request then settles, and a third full frame arrives. -/
def c3Trace : List CaptureEvent :=
  [.frame fullFrame, .frame fullFrame, .complete, .frame fullFrame]

/-- A well-formed caption data message. -/
def helloMsg : TranscriptionMessage :=
  { type := "caption", text := some "hello", language := "en", timestamp := 0,
    isLocal := false, participantName := "Speaker" }

/-- An earlier caption event whose translation resolves late. -/
def oldMsg : TranscriptionMessage :=
  { type := "caption", text := some "hello-old", language := "en",
    timestamp := 0, isLocal := false, participantName := "Speaker" }

/-- A newer caption event. -/
def newMsg : TranscriptionMessage :=
  { type := "caption", text := some "hello-new", language := "en",
    timestamp := 1, isLocal := false, participantName := "Speaker" }

/-- A caption data message whose text is whitespace only. -/
def blankMsg : TranscriptionMessage :=
  { type := "caption", text := some "   ", language := "en", timestamp := 0,
    isLocal := false, participantName := "Speaker" }

/-- Old event, new event, the new event's translation resolves, then the
old event's translation resolves late. -/
def staleTrace : List CaptionEvent :=
  [.recv oldMsg none, .recv newMsg none, .translateOk 1 (some "hola-new"),
   .translateOk 0 (some "hola-old")]

/-- A listener run that leaves a displayed caption with its expiry timer
pending. -/
def timerTrace : List CaptionEvent :=
  [.recv oldMsg none, .translateOk 0 (some "hola-old")]

/-! ## Theorems -/

@[simp] theorem fullFrame_length : fullFrame.length = 32000 :=
  List.length_replicate 32000 0

/-- A short frame that stays below the dispatch threshold. -/
def shortFrame : List ℚ := List.replicate 100 0

@[simp] theorem shortFrame_length : shortFrame.length = 100 :=
  List.length_replicate 100 0

/-! ### Symbolic unfolding lemmas for the capture machine

Chaining these lemmas lets concrete traces be evaluated without ever
forcing a 32000-element sample list. -/

theorem captureRunFrom_nil (hc : Bool) (s : CaptureState) :
    captureRunFrom hc s [] = s := rfl

theorem captureRunFrom_cons (hc : Bool) (s : CaptureState) (e : CaptureEvent)
    (evs : List CaptureEvent) :
    captureRunFrom hc s (e :: evs) = captureRunFrom hc (captureStep hc s e) evs := rfl

theorem captureStep_frame (hc : Bool) (s : CaptureState) (f : List ℚ) :
    captureStep hc s (.frame f) = stepFrame hc s f := rfl

theorem captureStep_complete (hc : Bool) (s : CaptureState) :
    captureStep hc s .complete = stepComplete s := rfl

theorem stepFrame_submit (s : CaptureState) (f : List ℚ)
    (h : s.bufferSize + f.length ≥ targetBufferSize)
    (hb : s.isProcessingAudio = false) :
    stepFrame true s f =
      { s with audioBuffer := s.audioBuffer ++ [f],
               bufferSize := s.bufferSize + f.length,
               overlapBuffer := some (newOverlap s f),
               isProcessingAudio := true,
               inFlight := s.inFlight + 1,
               dispatches := s.chunkIndex :: s.dispatches,
               submissions :=
                 ⟨s.chunkIndex, -1, combinedAudio s f⟩ :: s.submissions } := by
  unfold stepFrame newOverlap combinedAudio
  rw [if_pos h, hb]
  simp only [Bool.false_eq_true, if_false, if_true]

theorem stepFrame_dropBusy (hc : Bool) (s : CaptureState) (f : List ℚ)
    (h : s.bufferSize + f.length ≥ targetBufferSize)
    (hb : s.isProcessingAudio = true) :
    stepFrame hc s f =
      { s with audioBuffer := [], bufferSize := 0,
               overlapBuffer := some (newOverlap s f),
               chunkIndex := s.chunkIndex + 1,
               dispatches := s.chunkIndex :: s.dispatches } := by
  unfold stepFrame newOverlap combinedAudio
  rw [if_pos h, hb]
  simp only [if_true]

theorem stepFrame_below (hc : Bool) (s : CaptureState) (f : List ℚ)
    (h : ¬ (s.bufferSize + f.length ≥ targetBufferSize)) :
    stepFrame hc s f =
      { s with audioBuffer := s.audioBuffer ++ [f],
               bufferSize := s.bufferSize + f.length } := by
  unfold stepFrame
  rw [if_neg h]

theorem stepFrame_noCreds (s : CaptureState) (f : List ℚ)
    (h : s.bufferSize + f.length ≥ targetBufferSize)
    (hb : s.isProcessingAudio = false) :
    stepFrame false s f =
      { s with audioBuffer := [], bufferSize := 0,
               overlapBuffer := some (newOverlap s f),
               chunkIndex := s.chunkIndex + 1,
               dispatches := s.chunkIndex :: s.dispatches } := by
  unfold stepFrame newOverlap combinedAudio
  rw [if_pos h, hb]
  simp only [Bool.false_eq_true, if_false]

theorem stepComplete_busy (s : CaptureState) (hb : s.isProcessingAudio = true) :
    stepComplete s =
      { s with isProcessingAudio := false, inFlight := s.inFlight - 1,
               audioBuffer := [], bufferSize := 0,
               chunkIndex := s.chunkIndex + 1 } := by
  unfold stepComplete
  rw [hb]
  simp only [if_true]

theorem getLast?_cons_of_ne_nil {a : ℕ} {l : List ℕ} (h : l ≠ []) :
    (a :: l).getLast? = l.getLast? := by
  cases l with
  | nil => exact absurd rfl h
  | cons b m => rfl

theorem captureInv_init : CaptureInv captureInit := by
  refine ⟨rfl, ?_, ?_, ?_, ?_, ?_, ?_, ?_, ?_, rfl⟩ <;> simp [captureInit]

theorem captureInv_stepFrame (hc : Bool) (s : CaptureState) (f : List ℚ)
    (inv : CaptureInv s) : CaptureInv (stepFrame hc s f) := by
  by_cases hsize : s.bufferSize + f.length ≥ targetBufferSize
  · cases hbusy : s.isProcessingAudio with
    | true =>
      rw [stepFrame_dropBusy hc s f hsize hbusy]
      refine ⟨inv.flight_eq,
        List.pairwise_cons.mpr ⟨fun x hx => inv.disp_le x hx, inv.disp_sorted⟩,
        ?_, ?_, fun h => absurd h (List.cons_ne_nil _ _),
        fun _ => List.cons_ne_nil _ _, inv.subs_sorted, ?_, ?_, inv.chunks_nil⟩
      · show ∀ x ∈ s.chunkIndex :: s.dispatches, x ≤ s.chunkIndex + 1
        intro x hx
        rcases List.mem_cons.mp hx with h | h
        · omega
        · exact Nat.le_succ_of_le (inv.disp_le x h)
      · show s.chunkIndex :: s.dispatches ≠ [] →
          (s.chunkIndex :: s.dispatches).getLast? = some 0
        intro _
        rw [getLast?_cons_of_ne_nil (inv.busy_disp hbusy)]
        exact inv.disp_first (inv.busy_disp hbusy)
      · show s.isProcessingAudio = false → _
        intro h
        rw [hbusy] at h
        cases h
      · show s.isProcessingAudio = true →
          ∃ i rest, s.submissions.map AudioSubmission.index = i :: rest ∧
            i ≤ s.chunkIndex + 1 ∧ ∀ x ∈ rest, x < i
        intro _
        obtain ⟨i, rest, hmap, hle, hrest⟩ := inv.subs_busy hbusy
        exact ⟨i, rest, hmap, Nat.le_succ_of_le hle, hrest⟩
    | false =>
      cases hc with
      | false =>
        rw [stepFrame_noCreds s f hsize hbusy]
        refine ⟨inv.flight_eq,
          List.pairwise_cons.mpr ⟨fun x hx => inv.disp_le x hx, inv.disp_sorted⟩,
          ?_, ?_, fun h => absurd h (List.cons_ne_nil _ _),
          fun _ => List.cons_ne_nil _ _, inv.subs_sorted, ?_, ?_, inv.chunks_nil⟩
        · show ∀ x ∈ s.chunkIndex :: s.dispatches, x ≤ s.chunkIndex + 1
          intro x hx
          rcases List.mem_cons.mp hx with h | h
          · omega
          · exact Nat.le_succ_of_le (inv.disp_le x h)
        · show s.chunkIndex :: s.dispatches ≠ [] →
            (s.chunkIndex :: s.dispatches).getLast? = some 0
          intro _
          by_cases hd : s.dispatches = []
          · rw [hd, inv.disp_nil hd]
            rfl
          · rw [getLast?_cons_of_ne_nil hd]
            exact inv.disp_first hd
        · show s.isProcessingAudio = false →
            ∀ x ∈ s.submissions.map AudioSubmission.index, x < s.chunkIndex + 1
          intro _ x hx
          exact Nat.lt_succ_of_lt (inv.subs_lt hbusy x hx)
        · show s.isProcessingAudio = true → _
          intro h
          rw [hbusy] at h
          cases h
      | true =>
        rw [stepFrame_submit s f hsize hbusy]
        refine ⟨?_,
          List.pairwise_cons.mpr ⟨fun x hx => inv.disp_le x hx, inv.disp_sorted⟩,
          ?_, ?_, fun h => absurd h (List.cons_ne_nil _ _),
          fun _ => List.cons_ne_nil _ _, ?_, (fun h => nomatch h), ?_,
          inv.chunks_nil⟩
        · show s.inFlight + 1 = ite true 1 0
          have h0 : s.inFlight = 0 := by rw [inv.flight_eq, hbusy]; rfl
          rw [h0]
          decide
        · show ∀ x ∈ s.chunkIndex :: s.dispatches, x ≤ s.chunkIndex
          intro x hx
          rcases List.mem_cons.mp hx with h | h
          · omega
          · exact inv.disp_le x h
        · show s.chunkIndex :: s.dispatches ≠ [] →
            (s.chunkIndex :: s.dispatches).getLast? = some 0
          intro _
          by_cases hd : s.dispatches = []
          · rw [hd, inv.disp_nil hd]
            rfl
          · rw [getLast?_cons_of_ne_nil hd]
            exact inv.disp_first hd
        · show ((⟨s.chunkIndex, -1, combinedAudio s f⟩ :: s.submissions).map
            AudioSubmission.index).Pairwise (· > ·)
          rw [List.map_cons]
          exact List.pairwise_cons.mpr
            ⟨fun x hx => inv.subs_lt hbusy x hx, inv.subs_sorted⟩
        · show true = true → ∃ i rest,
            ((⟨s.chunkIndex, -1, combinedAudio s f⟩ :: s.submissions).map
              AudioSubmission.index) = i :: rest ∧
            i ≤ s.chunkIndex ∧ ∀ x ∈ rest, x < i
          intro _
          exact ⟨s.chunkIndex, s.submissions.map AudioSubmission.index,
            List.map_cons _ _ _, Nat.le_refl _,
            fun x hx => inv.subs_lt hbusy x hx⟩
  · rw [stepFrame_below hc s f hsize]
    exact ⟨inv.flight_eq, inv.disp_sorted, inv.disp_le, inv.disp_first,
      inv.disp_nil, inv.busy_disp, inv.subs_sorted, inv.subs_lt,
      inv.subs_busy, inv.chunks_nil⟩

theorem captureInv_stepComplete (s : CaptureState) (inv : CaptureInv s) :
    CaptureInv (stepComplete s) := by
  cases hbusy : s.isProcessingAudio with
  | false =>
    have hid : stepComplete s = s := by
      unfold stepComplete
      rw [hbusy]
      simp only [Bool.false_eq_true, if_false]
    rw [hid]
    exact inv
  | true =>
    rw [stepComplete_busy s hbusy]
    refine ⟨?_, inv.disp_sorted,
      fun x hx => Nat.le_succ_of_le (inv.disp_le x hx),
      fun h => inv.disp_first h,
      fun h => absurd h (inv.busy_disp hbusy),
      (fun h => nomatch h), inv.subs_sorted, ?_,
      (fun h => nomatch h), inv.chunks_nil⟩
    · show s.inFlight - 1 = ite false 1 0
      have h1 : s.inFlight = 1 := by rw [inv.flight_eq, hbusy]; rfl
      rw [h1]
      decide
    · show false = false →
        ∀ x ∈ s.submissions.map AudioSubmission.index, x < s.chunkIndex + 1
      intro _ x hx
      obtain ⟨i, rest, hmap, hle, hrest⟩ := inv.subs_busy hbusy
      rw [hmap] at hx
      rcases List.mem_cons.mp hx with h | h
      · omega
      · have := hrest x h
        omega

theorem captureInv_step (hc : Bool) (s : CaptureState) (e : CaptureEvent)
    (inv : CaptureInv s) : CaptureInv (captureStep hc s e) := by
  cases e with
  | frame f => exact captureInv_stepFrame hc s f inv
  | complete => exact captureInv_stepComplete s inv

theorem captureInv_runFrom (hc : Bool) (evs : List CaptureEvent)
    (s : CaptureState) (inv : CaptureInv s) :
    CaptureInv (captureRunFrom hc s evs) := by
  induction evs generalizing s with
  | nil => exact inv
  | cons e evs ih =>
    rw [captureRunFrom_cons]
    exact ih _ (captureInv_step hc s e inv)

theorem captureInv_run (hc : Bool) (evs : List CaptureEvent) :
    CaptureInv (captureRun hc evs) :=
  captureInv_runFrom hc evs captureInit captureInv_init

theorem captionRunFrom_nil (role : String) (s : CaptionState) :
    captionRunFrom role s [] = s := rfl

theorem captionRunFrom_cons (role : String) (s : CaptionState)
    (e : CaptionEvent) (evs : List CaptionEvent) :
    captionRunFrom role s (e :: evs) =
      captionRunFrom role (captionStep role s e) evs := rfl

theorem captionStep_recv_invalid (role : String) (s : CaptionState)
    (msg : TranscriptionMessage) (store : Option String)
    (hg : captionMsgOk msg = false) :
    captionStep role s (.recv msg store) = s := by
  simp only [captionStep]
  rw [hg]
  simp only [Bool.false_eq_true, if_false]

theorem captionStep_recv_listener (s : CaptionState)
    (msg : TranscriptionMessage) (store : Option String)
    (hg : captionMsgOk msg = true) :
    captionStep "listener" s (.recv msg store) =
      { clearedState s with
          pending := s.pending ++ [⟨msg, captionTargetLanguage store⟩],
          translateRequests := s.translateRequests ++
            [⟨msg.text.getD "", captionTargetLanguage store, "auto"⟩] } := by
  simp only [captionStep, clearedState]
  rw [hg]
  simp only [if_true]

theorem captionStep_recv_other (role : String) (s : CaptionState)
    (msg : TranscriptionMessage) (store : Option String)
    (hg : captionMsgOk msg = true)
    (hrole : ¬ (role = "listener")) :
    captionStep role s (.recv msg store) =
      { clearedState s with
          captionText := msg.text.getD "", messages := [msg],
          timerRef := some s.nextTimerId,
          scheduled := (clearedState s).scheduled ++ [s.nextTimerId],
          nextTimerId := s.nextTimerId + 1 } := by
  simp only [captionStep, clearedState]
  rw [hg]
  simp only [if_true]
  rw [if_neg hrole]

theorem captionStep_translateOk (role : String) (s : CaptionState) (i : ℕ)
    (data : Option String) (p : PendingTranslation)
    (hp : s.pending.get? i = some p) :
    captionStep role s (.translateOk i data) =
      { s with
          captionText := jsOrString data (p.msg.text.getD ""),
          messages := [{ p.msg with
            text := some (jsOrString data (p.msg.text.getD "")),
            language := p.myLanguage }],
          timerRef := some s.nextTimerId,
          scheduled := s.scheduled ++ [s.nextTimerId],
          nextTimerId := s.nextTimerId + 1,
          ttsRequests := s.ttsRequests ++
            [⟨jsOrString data (p.msg.text.getD ""), p.myLanguage⟩],
          pending := s.pending.eraseIdx i } := by
  simp only [captionStep]
  rw [hp]

theorem captionStep_translateOk_bad (role : String) (s : CaptionState) (i : ℕ)
    (data : Option String) (hp : s.pending.get? i = none) :
    captionStep role s (.translateOk i data) = s := by
  simp only [captionStep]
  rw [hp]

theorem captionStep_translateErr (role : String) (s : CaptionState) (i : ℕ)
    (p : PendingTranslation) (hp : s.pending.get? i = some p) :
    captionStep role s (.translateErr i) =
      { s with
          captionText := p.msg.text.getD "",
          messages := [{ p.msg with language := p.myLanguage }],
          timerRef := some s.nextTimerId,
          scheduled := s.scheduled ++ [s.nextTimerId],
          nextTimerId := s.nextTimerId + 1,
          pending := s.pending.eraseIdx i } := by
  simp only [captionStep]
  rw [hp]

theorem captionStep_translateErr_bad (role : String) (s : CaptionState) (i : ℕ)
    (hp : s.pending.get? i = none) :
    captionStep role s (.translateErr i) = s := by
  simp only [captionStep]
  rw [hp]

theorem captionStep_timerFire_mem (role : String) (s : CaptionState) (id : ℕ)
    (h : id ∈ s.scheduled) :
    captionStep role s (.timerFire id) =
      { s with captionText := "", scheduled := s.scheduled.erase id } := by
  simp only [captionStep]
  exact if_pos h

theorem captionStep_timerFire_gone (role : String) (s : CaptionState) (id : ℕ)
    (h : ¬ (id ∈ s.scheduled)) :
    captionStep role s (.timerFire id) = s := by
  simp only [captionStep]
  exact if_neg h

/-- What passing the caption guard says about the message's text. -/
theorem captionMsgOk_spec (msg : TranscriptionMessage)
    (hg : captionMsgOk msg = true) :
    msg.text.getD "" ≠ "" ∧ jsTrim (msg.text.getD "") ≠ "" := by
  unfold captionMsgOk at hg
  simp only [Bool.and_eq_true, bne_iff_ne] at hg
  exact ⟨hg.1.2, hg.2⟩

theorem captionInv_init : CaptionInv captionInit := by
  refine ⟨?_, ?_, ?_, ?_⟩ <;> simp [captionInit]

theorem clearedState_inv (s : CaptionState) (inv : CaptionInv s) :
    CaptionInv (clearedState s) := by
  refine ⟨?_, ?_, inv.ref_lt, inv.pending_text⟩ <;> unfold clearedState
  · show List.Nodup (match s.timerRef with
      | some id => s.scheduled.erase id
      | none => s.scheduled)
    cases s.timerRef with
    | none => exact inv.sched_nodup
    | some id => exact inv.sched_nodup.erase id
  · show ∀ x ∈ (match s.timerRef with
      | some id => s.scheduled.erase id
      | none => s.scheduled), x < s.nextTimerId
    cases s.timerRef with
    | none => exact inv.sched_lt
    | some id =>
      intro x hx
      exact inv.sched_lt x (List.mem_of_mem_erase hx)

theorem sched_append_fresh {l : List ℕ} {n : ℕ} (hn : l.Nodup)
    (hlt : ∀ x ∈ l, x < n) : (l ++ [n]).Nodup := by
  rw [List.nodup_append]
  refine ⟨hn, List.nodup_singleton n, ?_⟩
  intro x hx hx1
  rw [List.mem_singleton] at hx1
  subst hx1
  exact lt_irrefl x (hlt x hx)

theorem captionInv_step (role : String) (s : CaptionState) (e : CaptionEvent)
    (inv : CaptionInv s) : CaptionInv (captionStep role s e) := by
  cases e with
  | recv msg store =>
    cases hg : captionMsgOk msg with
    | false =>
      rw [captionStep_recv_invalid role s msg store hg]
      exact inv
    | true =>
      by_cases hrole : role = "listener"
      · subst hrole
        rw [captionStep_recv_listener s msg store hg]
        have base := clearedState_inv s inv
        refine ⟨base.sched_nodup, base.sched_lt, base.ref_lt, ?_⟩
        show ∀ p ∈ s.pending ++ [⟨msg, captionTargetLanguage store⟩],
          p.msg.text.getD "" ≠ "" ∧ jsTrim (p.msg.text.getD "") ≠ ""
        intro p hp
        rcases List.mem_append.mp hp with h | h
        · exact inv.pending_text p h
        · rw [List.mem_singleton] at h
          subst h
          exact captionMsgOk_spec msg hg
      · rw [captionStep_recv_other role s msg store hg hrole]
        have base := clearedState_inv s inv
        refine ⟨?_, ?_, ?_, inv.pending_text⟩
        · exact sched_append_fresh base.sched_nodup base.sched_lt
        · show ∀ x ∈ (clearedState s).scheduled ++ [s.nextTimerId],
            x < s.nextTimerId + 1
          intro x hx
          rcases List.mem_append.mp hx with h | h
          · exact Nat.lt_succ_of_lt (base.sched_lt x h)
          · rw [List.mem_singleton] at h
            omega
        · show ∀ id, some s.nextTimerId = some id → id < s.nextTimerId + 1
          intro id hid
          cases hid
          omega
  | translateOk i data =>
    cases hp : s.pending.get? i with
    | none => rw [captionStep_translateOk_bad role s i data hp]; exact inv
    | some p =>
      rw [captionStep_translateOk role s i data p hp]
      refine ⟨sched_append_fresh inv.sched_nodup inv.sched_lt, ?_, ?_, ?_⟩
      · show ∀ x ∈ s.scheduled ++ [s.nextTimerId], x < s.nextTimerId + 1
        intro x hx
        rcases List.mem_append.mp hx with h | h
        · exact Nat.lt_succ_of_lt (inv.sched_lt x h)
        · rw [List.mem_singleton] at h
          omega
      · show ∀ id, some s.nextTimerId = some id → id < s.nextTimerId + 1
        intro id hid
        cases hid
        omega
      · show ∀ q ∈ s.pending.eraseIdx i,
          q.msg.text.getD "" ≠ "" ∧ jsTrim (q.msg.text.getD "") ≠ ""
        intro q hq
        exact inv.pending_text q ((s.pending.eraseIdx_sublist i).subset hq)
  | translateErr i =>
    cases hp : s.pending.get? i with
    | none => rw [captionStep_translateErr_bad role s i hp]; exact inv
    | some p =>
      rw [captionStep_translateErr role s i p hp]
      refine ⟨sched_append_fresh inv.sched_nodup inv.sched_lt, ?_, ?_, ?_⟩
      · show ∀ x ∈ s.scheduled ++ [s.nextTimerId], x < s.nextTimerId + 1
        intro x hx
        rcases List.mem_append.mp hx with h | h
        · exact Nat.lt_succ_of_lt (inv.sched_lt x h)
        · rw [List.mem_singleton] at h
          omega
      · show ∀ id, some s.nextTimerId = some id → id < s.nextTimerId + 1
        intro id hid
        cases hid
        omega
      · show ∀ q ∈ s.pending.eraseIdx i,
          q.msg.text.getD "" ≠ "" ∧ jsTrim (q.msg.text.getD "") ≠ ""
        intro q hq
        exact inv.pending_text q ((s.pending.eraseIdx_sublist i).subset hq)
  | timerFire id =>
    by_cases h : id ∈ s.scheduled
    · rw [captionStep_timerFire_mem role s id h]
      refine ⟨inv.sched_nodup.erase id, ?_, inv.ref_lt, inv.pending_text⟩
      intro x hx
      exact inv.sched_lt x (List.mem_of_mem_erase hx)
    · rw [captionStep_timerFire_gone role s id h]
      exact inv

theorem captionInv_runFrom (role : String) (evs : List CaptionEvent)
    (s : CaptionState) (inv : CaptionInv s) :
    CaptionInv (captionRunFrom role s evs) := by
  induction evs generalizing s with
  | nil => exact inv
  | cons e evs ih =>
    rw [captionRunFrom_cons]
    exact ih _ (captionInv_step role s e inv)

theorem captionInv_run (role : String) (evs : List CaptionEvent) :
    CaptionInv (captionRun role evs) :=
  captionInv_runFrom role evs captionInit captionInv_init

theorem busyTrace_run :
    captureRun true busyTrace = stepFrame true captureInit fullFrame := by
  unfold captureRun busyTrace
  rw [captureRunFrom_cons, captureStep_frame, captureRunFrom_nil]

theorem busyTrace_fields :
    (captureRun true busyTrace).isProcessingAudio = true ∧
    (captureRun true busyTrace).dispatches = [0] := by
  rw [busyTrace_run,
    stepFrame_submit _ _ (by rw [fullFrame_length]; decide) rfl]
  exact ⟨rfl, rfl⟩

/-- `stopSpeech` on any state whose `audioChunksRef` is empty only resets
the chunk counter. -/
theorem stopSpeech_of_chunks_nil (s : CaptureState) (h : s.audioChunks = []) :
    stopSpeech s = { s with chunkIndex := 0 } := by
  unfold stopSpeech
  rw [h]
  rfl

/-- C1: at most one transcription submission is in flight per session; a
`processAudioChunk` invocation arriving while one is in flight issues no
request, leaves the in-flight count unchanged, and the chunk's buffered
samples are discarded rather than queued. -/
theorem processAudioChunk_single_flight (hc : Bool) (tr : List CaptureEvent) :
    (captureRun hc tr).inFlight ≤ 1 ∧
    ∀ f, (captureRun hc tr).isProcessingAudio = true →
      (stepFrame hc (captureRun hc tr) f).submissions
          = (captureRun hc tr).submissions ∧
      (stepFrame hc (captureRun hc tr) f).inFlight = (captureRun hc tr).inFlight ∧
      ((captureRun hc tr).bufferSize + f.length ≥ targetBufferSize →
        (stepFrame hc (captureRun hc tr) f).audioBuffer = [] ∧
        (stepFrame hc (captureRun hc tr) f).bufferSize = 0) := by
  have inv := captureInv_run hc tr
  constructor
  · rw [inv.flight_eq]
    split <;> omega
  · intro f hbusy
    by_cases hsize : (captureRun hc tr).bufferSize + f.length ≥ targetBufferSize
    · rw [stepFrame_dropBusy hc (captureRun hc tr) f hsize hbusy]
      exact ⟨rfl, rfl, fun _ => ⟨rfl, rfl⟩⟩
    · rw [stepFrame_below hc (captureRun hc tr) f hsize]
      exact ⟨rfl, rfl, fun h => absurd h hsize⟩

/-- C1 witness: with one submission in flight, a second full frame issues
no new request and the in-flight count is unchanged. -/
theorem processAudioChunk_single_flight_witness :
    (stepFrame true (captureRun true busyTrace) fullFrame).submissions
        = (captureRun true busyTrace).submissions ∧
    (stepFrame true (captureRun true busyTrace) fullFrame).inFlight
        = (captureRun true busyTrace).inFlight := by
  have h := (processAudioChunk_single_flight true busyTrace).2 fullFrame
    busyTrace_fields.1
  exact ⟨h.1, h.2.1⟩

/-- C2 is a code bug: the spec says `stop()` flushes the partial remainder
as a final chunk, and `stopSpeech` contains that flush — but capture pushes
frames only into the worklet-local `audioBuffer`, never into
`audioChunksRef` which the flush reads, so the flush is dead code.  At the
failing input (one 100-sample frame, then stop) a non-empty remainder is
buffered, yet `stopSpeech` submits nothing, for this trace and in general. -/
theorem stop_flush_never_fires :
    (captureRun true [.frame shortFrame]).bufferSize = 100 ∧
    (captureRun true [.frame shortFrame]).audioBuffer ≠ [] ∧
    (captureRun true [.frame shortFrame]).audioChunks = [] ∧
    (stopSpeech (captureRun true [.frame shortFrame])).submissions = [] ∧
    (∀ hc tr, (stopSpeech (captureRun hc tr)).submissions
        = (captureRun hc tr).submissions) := by
  refine ⟨by decide, by decide, by decide, by decide, ?_⟩
  intro hc tr
  rw [stopSpeech_of_chunks_nil _ (captureInv_run hc tr).chunks_nil]

/-- C3 counterexample: with a drop while a submission is in flight, the
indices passed to `processAudioChunk` are 0, 0, 2 — not the 0, 1, 2 the
claim requires. -/
theorem chunk_indices_exact_counterexample :
    (captureRun true c3Trace).dispatches.reverse = [0, 0, 2] ∧
    ¬ ((captureRun true c3Trace).dispatches.reverse = [0, 1, 2]) := by
  have h : (captureRun true c3Trace).dispatches = [2, 0, 0] := by
    unfold captureRun c3Trace
    rw [captureRunFrom_cons, captureStep_frame,
      stepFrame_submit _ _ (by rw [fullFrame_length]; decide) rfl]
    rw [captureRunFrom_cons, captureStep_frame,
      stepFrame_dropBusy _ _ _ (by rw [fullFrame_length]; decide) rfl]
    rw [captureRunFrom_cons, captureStep_complete, stepComplete_busy _ rfl]
    rw [captureRunFrom_cons, captureStep_frame,
      stepFrame_submit _ _ (by rw [fullFrame_length]; decide) rfl,
      captureRunFrom_nil]
    rfl
  rw [h]
  exact ⟨rfl, by decide⟩

/-- C3 amended: within one recording session the chunk indices passed to
dispatch are nondecreasing (newest-first list is `Pairwise (· ≥ ·)`) and
the first dispatched index is 0; the indices of the submissions that
acquire the permit are strictly increasing (newest-first list is
`Pairwise (· > ·)`).  Dropped-while-busy dispatches may repeat the
in-flight index and create gaps, so the full sequence need not be exactly
0, 1, 2, …. -/
theorem chunk_indices_monotone (hc : Bool) (tr : List CaptureEvent) :
    (captureRun hc tr).dispatches.Pairwise (· ≥ ·) ∧
    ((captureRun hc tr).dispatches ≠ [] →
      (captureRun hc tr).dispatches.getLast? = some 0) ∧
    ((captureRun hc tr).submissions.map AudioSubmission.index).Pairwise
      (· > ·) :=
  ⟨(captureInv_run hc tr).disp_sorted, (captureInv_run hc tr).disp_first,
   (captureInv_run hc tr).subs_sorted⟩

/-- C3 witness: on a one-frame trace the dispatch log is nonempty and its
oldest entry is index 0. -/
theorem chunk_indices_monotone_witness :
    (captureRun true busyTrace).dispatches.getLast? = some 0 := by
  have hne : (captureRun true busyTrace).dispatches ≠ [] := by
    rw [busyTrace_fields.2]
    decide
  exact (chunk_indices_monotone true busyTrace).2.1 hne

/-- C4 counterexample: for a listener caption event with no
`listenerLanguage` override stored, the translation request is issued with
target `"en"`; the spec's resolution order (override, else profile
preference, else default) yields `"fr-FR"` for a profile language of
`"fr-FR"`, which the caption path never consults. -/
theorem caption_language_ignores_profile_counterexample :
    (captionRun "listener" [.recv helloMsg none]).translateRequests
        = [⟨"hello", "en", "auto"⟩] ∧
    specTargetLanguage none (some "fr-FR") Helpers.defaultLanguage = "fr-FR" ∧
    ("en" : String) ≠ "fr-FR" := by
  exact ⟨by decide, rfl, by decide⟩

/-- C4 amended: the caption-path target language for translation and
speech synthesis is the `listenerLanguage` override when present and
non-empty, else the literal `"en"`; the profile preference and the
`"en-US"` default are not consulted on this path. -/
theorem caption_translation_language (s : CaptionState)
    (msg : TranscriptionMessage) (store : Option String)
    (hg : captionMsgOk msg = true) :
    (captionStep "listener" s (.recv msg store)).translateRequests
        = s.translateRequests ++
          [⟨msg.text.getD "", captionTargetLanguage store, "auto"⟩] ∧
    (∀ l, l ≠ "" → captionTargetLanguage (some l) = l) ∧
    captionTargetLanguage none = "en" ∧
    captionTargetLanguage (some "") = "en" ∧
    (∀ i d p, s.pending.get? i = some p →
      (captionStep "listener" s (.translateOk i d)).ttsRequests
        = s.ttsRequests ++ [⟨jsOrString d (p.msg.text.getD ""), p.myLanguage⟩]) := by
  refine ⟨?_, ?_, rfl, rfl, ?_⟩
  · rw [captionStep_recv_listener s msg store hg]
  · intro l hl
    show (if l = "" then "en" else l) = l
    exact if_neg hl
  · intro i d p hp
    rw [captionStep_translateOk "listener" s i d p hp]

/-- C4 witness: with the override set to `"es-ES"` the translation request
carries `"es-ES"`. -/
theorem caption_translation_language_witness :
    (captionStep "listener" captionInit
        (.recv helloMsg (some "es-ES"))).translateRequests
      = [⟨"hello", "es-ES", "auto"⟩] := by
  have h := (caption_translation_language captionInit helloMsg (some "es-ES")
    (by decide)).1
  rw [h]
  decide

/-- C5: when the `i`-th in-flight translation of a reachable listener
session rejects, the displayed caption becomes exactly the original source
text of that caption event, which is never empty. -/
theorem translation_failure_displays_source (tr : List CaptionEvent) (i : ℕ)
    (p : PendingTranslation)
    (hp : (captionRun "listener" tr).pending.get? i = some p) :
    (captionStep "listener" (captionRun "listener" tr)
        (.translateErr i)).captionText = p.msg.text.getD "" ∧
    p.msg.text.getD "" ≠ "" := by
  have inv := captionInv_run "listener" tr
  have hmem : p ∈ (captionRun "listener" tr).pending := List.get?_mem hp
  refine ⟨?_, (inv.pending_text p hmem).1⟩
  rw [captionStep_translateErr "listener" (captionRun "listener" tr) i p hp]

/-- C5 witness: a failing translation of `"hello"` displays `"hello"`. -/
theorem translation_failure_displays_source_witness :
    (captionStep "listener" (captionRun "listener" [.recv helloMsg none])
        (.translateErr 0)).captionText = "hello" ∧ ("hello" : String) ≠ "" := by
  have h := translation_failure_displays_source [.recv helloMsg none] 0
    ⟨helloMsg, "en"⟩ (by decide)
  refine ⟨?_, by decide⟩
  rw [h.1]
  decide

/-- C6 counterexample: after a newer caption event was processed and its
translation displayed, the older event's late-arriving translation
overwrites the caption — the final displayed text belongs to the older
event and matches no text of the newer one. -/
theorem stale_translation_overwrites_counterexample :
    (captionRun "listener" staleTrace).captionText = "hola-old" ∧
    ("hola-old" : String) ≠ "hola-new" ∧
    ("hola-old" : String) ≠ "hello-new" := by
  exact ⟨by decide, by decide, by decide⟩

/-- C6 amended: whenever a valid caption event is processed, the displayed
caption is immediately cleared (a listener's stays empty until a
translation settles; any other role's is replaced by the event's own
text), the history is reset, and the pending expiry timer is cancelled.
In-flight translation requests of older events are not cancelled and may
later overwrite the caption. -/
theorem new_caption_clears_previous (role : String) (tr : List CaptionEvent)
    (msg : TranscriptionMessage) (store : Option String)
    (hg : captionMsgOk msg = true) :
    (role = "listener" →
      (captionStep role (captionRun role tr) (.recv msg store)).captionText
          = "" ∧
      (captionStep role (captionRun role tr) (.recv msg store)).messages
          = []) ∧
    (role ≠ "listener" →
      (captionStep role (captionRun role tr) (.recv msg store)).captionText
          = msg.text.getD "" ∧
      (captionStep role (captionRun role tr) (.recv msg store)).messages
          = [msg]) ∧
    (∀ id, (captionRun role tr).timerRef = some id →
      id ∉ (captionStep role (captionRun role tr) (.recv msg store)).scheduled) := by
  have inv := captionInv_run role tr
  refine ⟨?_, ?_, ?_⟩
  · intro hrole
    subst hrole
    rw [captionStep_recv_listener (captionRun "listener" tr) msg store hg]
    exact ⟨rfl, rfl⟩
  · intro hrole
    rw [captionStep_recv_other role (captionRun role tr) msg store hg hrole]
    exact ⟨rfl, rfl⟩
  · intro id hid
    have hnotm : id ∉ (clearedState (captionRun role tr)).scheduled := by
      show id ∉ (match (captionRun role tr).timerRef with
        | some i => (captionRun role tr).scheduled.erase i
        | none => (captionRun role tr).scheduled)
      rw [hid]
      intro hmem
      exact ((inv.sched_nodup.mem_erase_iff).mp hmem).1 rfl
    by_cases hrole : role = "listener"
    · subst hrole
      rw [captionStep_recv_listener (captionRun "listener" tr) msg store hg]
      exact hnotm
    · rw [captionStep_recv_other role (captionRun role tr) msg store hg hrole]
      intro hmem
      rcases List.mem_append.mp hmem with h | h
      · exact hnotm h
      · rw [List.mem_singleton] at h
        subst h
        exact lt_irrefl _ (inv.ref_lt _ hid)

/-- C6 witness: a displayed caption with a pending timer is cleared and
its timer cancelled when the next caption event arrives. -/
theorem new_caption_clears_previous_witness :
    (captionStep "listener" (captionRun "listener" timerTrace)
        (.recv newMsg none)).captionText = "" ∧
    0 ∉ (captionStep "listener" (captionRun "listener" timerTrace)
        (.recv newMsg none)).scheduled := by
  have h := new_caption_clears_previous "listener" timerTrace newMsg none
    (by decide)
  exact ⟨(h.1 rfl).1, h.2.2 0 (by decide)⟩

/-- C7: every `processAudioChunk` invocation that acquires the permit
releases it on every exit path — missing info, success, non-OK response
or thrown exception — and a subsequent invocation can acquire it again. -/
theorem permit_released_on_every_path (o : SubmitOutcome) :
    (processAudioChunkModel false o).isProcessingAudio = false ∧
    ∀ o2, (processAudioChunkModel
        (processAudioChunkModel false o).isProcessingAudio o2).isProcessingAudio
      = false := by
  cases o <;> exact ⟨rfl, fun o2 => by cases o2 <;> rfl⟩

/-- C8 counterexample: a clamped sample of −1 is encoded as
`−1 * 0x7FFF = −32767`, not the minimum representable 16-bit value
−32768. -/
theorem wav_min_scaling_counterexample :
    WAVEncoder.encodeSample (-1) = -32767 ∧ ((-32767 : ℤ) ≠ -32768) := by
  constructor
  · have h1 : WAVEncoder.clampSample (-1) = -1 := by
      unfold WAVEncoder.clampSample
      norm_num
    unfold WAVEncoder.encodeSample WAVEncoder.jsToInt16
    rw [h1]
    norm_num
    rw [show ((-32767 : ℚ)) = ((-32767 : ℤ) : ℚ) by norm_num, Int.ceil_intCast]
  · decide

theorem clampSample_mem (q : ℚ) :
    -1 ≤ WAVEncoder.clampSample q ∧ WAVEncoder.clampSample q ≤ 1 := by
  unfold WAVEncoder.clampSample
  exact ⟨le_max_left _ _, max_le (by norm_num) (min_le_left _ _)⟩

theorem clampSample_idem (q : ℚ) :
    WAVEncoder.clampSample (WAVEncoder.clampSample q) =
      WAVEncoder.clampSample q := by
  obtain ⟨h1, h2⟩ := clampSample_mem q
  show max (-1) (min 1 (WAVEncoder.clampSample q)) = WAVEncoder.clampSample q
  rw [min_eq_right h2]
  exact max_eq_right h1

theorem jsToInt16_bounds (q : ℚ) (h1 : -32767 ≤ q) (h2 : q ≤ 32767) :
    -32767 ≤ WAVEncoder.jsToInt16 q ∧ WAVEncoder.jsToInt16 q ≤ 32767 := by
  unfold WAVEncoder.jsToInt16
  split
  · constructor
    · calc (-32767 : ℤ) = ⌊((-32767 : ℤ) : ℚ)⌋ := (Int.floor_intCast _).symm
        _ ≤ ⌊q⌋ := Int.floor_le_floor (by push_cast; linarith)
    · calc ⌊q⌋ ≤ ⌊((32767 : ℤ) : ℚ)⌋ := Int.floor_le_floor (by push_cast; linarith)
        _ = 32767 := Int.floor_intCast _
  · constructor
    · calc (-32767 : ℤ) = ⌈((-32767 : ℤ) : ℚ)⌉ := (Int.ceil_intCast _).symm
        _ ≤ ⌈q⌉ := Int.ceil_le_ceil (by push_cast; linarith)
    · calc ⌈q⌉ ≤ ⌈((32767 : ℤ) : ℚ)⌉ := Int.ceil_le_ceil (by push_cast; linarith)
        _ = 32767 := Int.ceil_intCast _

/-- C8 amended: every sample is clamped to [−1, 1] before scaling by
`0x7FFF = 32767`; encoded values span [−32767, 32767], with −1 mapping to
−32767 (not −32768) and +1 to 32767. -/
theorem encodeSample_clamped_range (s : ℚ) :
    WAVEncoder.encodeSample s
        = WAVEncoder.encodeSample (WAVEncoder.clampSample s) ∧
    -32767 ≤ WAVEncoder.encodeSample s ∧
    WAVEncoder.encodeSample s ≤ 32767 ∧
    WAVEncoder.encodeSample 1 = 32767 := by
  obtain ⟨h1, h2⟩ := clampSample_mem s
  have hb := jsToInt16_bounds (WAVEncoder.clampSample s * 32767)
    (by linarith) (by linarith)
  refine ⟨?_, hb.1, hb.2, ?_⟩
  · show WAVEncoder.jsToInt16 (WAVEncoder.clampSample s * 32767)
      = WAVEncoder.jsToInt16 (WAVEncoder.clampSample (WAVEncoder.clampSample s) * 32767)
    rw [clampSample_idem]
  · have hc : WAVEncoder.clampSample 1 = 1 := by
      unfold WAVEncoder.clampSample
      norm_num
    unfold WAVEncoder.encodeSample WAVEncoder.jsToInt16
    rw [hc]
    norm_num

/-- C9: a caption data message whose `text` is absent, empty or whitespace
only is ignored entirely — the state (caption, history, timers, pending
and issued requests) is unchanged. -/
theorem blank_caption_message_ignored (role : String) (s : CaptionState)
    (msg : TranscriptionMessage) (store : Option String)
    (h : msg.text = none ∨ msg.text = some "" ∨
      ∃ t, msg.text = some t ∧ jsTrim t = "") :
    captionStep role s (.recv msg store) = s := by
  apply captionStep_recv_invalid
  unfold captionMsgOk
  rcases h with h | h | ⟨t, ht, htrim⟩
  · rw [h]
    simp
  · rw [h]
    simp
  · rw [ht]
    simp [htrim]

/-- C9 witness: a whitespace-only caption message leaves the initial state
untouched. -/
theorem blank_caption_message_ignored_witness :
    captionStep "listener" captionInit (.recv blankMsg none) = captionInit :=
  blank_caption_message_ignored "listener" captionInit blankMsg none
    (Or.inr (Or.inr ⟨"   ", rfl, by decide⟩))

/-- C10: no event other than a successful translation response ever issues
a TTS request: a rejected translation, an incoming caption message and a
timer expiry all leave the TTS request log unchanged. -/
theorem tts_only_after_translation_success (role : String) (s : CaptionState) :
    (∀ i, (captionStep role s (.translateErr i)).ttsRequests = s.ttsRequests) ∧
    (∀ msg store,
      (captionStep role s (.recv msg store)).ttsRequests = s.ttsRequests) ∧
    (∀ id, (captionStep role s (.timerFire id)).ttsRequests = s.ttsRequests) := by
  refine ⟨fun i => ?_, fun msg store => ?_, fun id => ?_⟩
  · cases hp : s.pending.get? i with
    | none => rw [captionStep_translateErr_bad role s i hp]
    | some p => rw [captionStep_translateErr role s i p hp]
  · cases hg : captionMsgOk msg with
    | false => rw [captionStep_recv_invalid role s msg store hg]
    | true =>
      by_cases hrole : role = "listener"
      · subst hrole
        rw [captionStep_recv_listener s msg store hg]
        rfl
      · rw [captionStep_recv_other role s msg store hg hrole]
        rfl
  · by_cases hmem : id ∈ s.scheduled
    · rw [captionStep_timerFire_mem role s id hmem]
    · rw [captionStep_timerFire_gone role s id hmem]

end Livekit
